import Mathlib

/-!
A shallow embedding of the request-admission and account-scheduling core of the
claude-relay-service repository: the unified Claude/OpenAI account schedulers
(`src/services/unifiedClaudeScheduler.js`, `src/services/unifiedOpenAIScheduler.js`)
and the API-key service (`src/services/apiKeyService.js`).

JavaScript objects become Lean structures, the redis-backed store becomes an
explicit state record threaded through the operations, and every fallible path
returns an `Except`.  Timestamps are `Int` milliseconds; token counts are `Nat`.
String-typed persisted fields (`"true"`/`"false"` flags, status strings) are
kept as strings exactly as the source reads them.  `Option` models JS
null/undefined/empty-string falsiness where the source branches on truthiness.
-/

namespace Relay

/-! ## Candidate accounts and the scheduler sort (`_sortAccountsByPriority`)

Both schedulers rank the candidate pool with the same in-place
`Array.prototype.sort` call.  A candidate entry is what
`_getAllAvailableAccounts` pushes: the raw account spread together with
`accountId`, `accountType`, a numeric `priority` (`parseInt(p) || 50`) and the
`lastUsedAt` fallback; `priority` and the parsed `lastUsedAt` milliseconds are
the only numbers the comparator reads. -/

structure SchedAccount where
  accountId : String
  name : String
  accountType : String
  priority : Int
  lastUsedMs : Int
deriving Repr, DecidableEq

/-- The comparator passed to `accounts.sort`: priority difference when the
priorities differ, otherwise the difference of the parsed `lastUsedAt`
timestamps (least-recently-used first). -/
def jsSortCmp (a b : SchedAccount) : Int :=
  if a.priority ≠ b.priority then a.priority - b.priority
  else a.lastUsedMs - b.lastUsedMs

/-- `a` may be placed before `b` by a stable sort running `jsSortCmp`:
the comparator result is non-positive. -/
def accountLE (a b : SchedAccount) : Bool :=
  decide (jsSortCmp a b ≤ 0)

/-- `_sortAccountsByPriority` (`unifiedClaudeScheduler.js` lines 218-230 and
`unifiedOpenAIScheduler.js` lines 216-228).  `Array.prototype.sort` is
specified to be stable since ES2019, so for the consistent comparator
`jsSortCmp` it is exactly a stable merge sort under `accountLE`. -/
def sortAccountsByPriority (accounts : List SchedAccount) : List SchedAccount :=
  accounts.mergeSort accountLE

/-- Lexicographic order on lists of naturals (computable helper for comparing
account ids by their character codes). -/
def natListLex : List Nat → List Nat → Bool
  | [], _ => true
  | _ :: _, [] => false
  | a :: as, b :: bs => if a < b then true else if a == b then natListLex as bs else false

/-- Lexicographic character-code order on strings. -/
def idLE (s t : String) : Bool :=
  natListLex (s.data.map Char.toNat) (t.data.map Char.toNat)

/-- The ranking order described by the spec's own words: priority ascending,
then `lastUsedAt` ascending, then `id` ascending as the final tie-breaker.
Used only to compare the specified order against the implemented one. -/
def specClaimedLE (a b : SchedAccount) : Bool :=
  a.priority < b.priority ||
    (a.priority == b.priority &&
      (a.lastUsedMs < b.lastUsedMs ||
        (a.lastUsedMs == b.lastUsedMs && idLE a.accountId b.accountId)))

/-- A candidate with id "b": priority 1, last used at epoch 0. -/
def exTieB : SchedAccount := ⟨"b", "B", "claude-official", 1, 0⟩

/-- A candidate with id "a", carrying exactly the same sort keys as `exTieB`. -/
def exTieA : SchedAccount := ⟨"a", "A", "claude-official", 1, 0⟩

/-! ## Per-account rate-limit window (`unifiedOpenAIScheduler.isAccountRateLimited`) -/

/-- One hour, the `limitDuration` constant of the source. -/
def rateLimitDurationMs : Int := 60 * 60 * 1000

/-- An OpenAI account record as `openaiAccountService.getAccount` returns it:
a string-typed redis hash (`isActive === 'true'` comparisons in the source).
`rateLimitedAt` is stored as an ISO string; `none` models the empty/unset field
(falsy in JS) and `some t` the parsed timestamp in milliseconds.
`schedulable` is `none` when the field is missing (undefined/null).
`supportedModels` is the plain array format; the absent field and the empty
array behave identically in every check and share the `[]` encoding.
`tokenExpired` is the result of `openaiAccountService.isTokenExpired(account)`
- that service is not among the sources and the spec does not state the expiry
rule, so it is carried as a per-account oracle. -/
structure OpenAIAccount where
  id : String
  name : String
  isActive : String
  status : String
  accountType : String
  schedulable : Option String
  priority : Option Int
  lastUsedAt : Option Int
  rateLimitStatus : String
  rateLimitedAt : Option Int
  supportedModels : List String
  refreshToken : String
  tokenExpired : Bool
deriving Repr, DecidableEq

/-- `unifiedOpenAIScheduler.isAccountRateLimited` (lines 324-343): a missing
account is not limited; otherwise the account is limited exactly while
`rateLimitStatus` is `"limited"`, `rateLimitedAt` is set, and
`now < rateLimitedAt + 1h`. -/
def openaiIsAccountRateLimited (account : Option OpenAIAccount) (now : Int) : Bool :=
  match account with
  | none => false
  | some a =>
    if a.rateLimitStatus = "limited" then
      match a.rateLimitedAt with
      | some limitedAt => decide (now < limitedAt + rateLimitDurationMs)
      | none => false
    else false

/-! ## The unified Claude scheduler state

`unifiedClaudeScheduler.js` reads Claude OAuth accounts (string-typed redis
hashes), Claude Console accounts (JSON records with real booleans), and the
session-mapping keys.  The redis client itself is not part of the sources, so
plain lookups/TTL behaviour are modelled from the spec's KeyStore and
SessionMap contracts. -/

/-- A Claude OAuth account as `redis.getClaudeAccount` returns it: every flag
is a string.  `priority`/`lastUsedAt` are numeric/date strings; `none` models
a missing or unparsable field (`parseInt` then yields NaN, `Date` parsing is
only applied through the fallbacks below). -/
structure ClaudeAccount where
  id : String
  name : String
  isActive : String
  status : String
  accountType : String
  schedulable : String
  priority : Option Int
  lastUsedAt : Option Int
  rateLimitStatus : String
  rateLimitedAt : Option Int
deriving Repr, DecidableEq

/-- `supportedModels` of a Console account: the legacy array format or the new
mapping format (client-facing model id → upstream model id). -/
inductive SupportedModels where
  | arr (models : List String)
  | table (mapping : List (String × String))
deriving Repr, DecidableEq

/-- A Claude Console account as `claudeConsoleAccountService.getAccount`
returns it: `isActive`/`schedulable` are real booleans.  `none` for
`supportedModels` models the absent (falsy) field. -/
structure ConsoleAccount where
  id : String
  name : String
  isActive : Bool
  status : String
  accountType : String
  schedulable : Bool
  priority : Option Int
  lastUsedAt : Option Int
  rateLimitStatus : String
  rateLimitedAt : Option Int
  supportedModels : Option SupportedModels
deriving Repr, DecidableEq

/-- A stored session mapping together with its redis TTL expiry instant. -/
structure SessionEntry where
  accountId : String
  accountType : String
  expiresAtMs : Int
deriving Repr, DecidableEq

/-- The scheduler's view of the store plus the current clock. -/
structure SchedState where
  claudeAccounts : List ClaudeAccount
  consoleAccounts : List ConsoleAccount
  sessionMap : List (String × SessionEntry)
  now : Int
deriving Repr, DecidableEq

/-- The slice of `apiKeyData` the Claude scheduler reads.  `none` models the
empty-string binding (falsy in `if (apiKeyData.claudeAccountId)`). -/
structure SchedulerKey where
  name : String
  claudeAccountId : Option String
  claudeConsoleAccountId : Option String
deriving Repr, DecidableEq

/-- The scheduler's return value. -/
structure Selection where
  accountId : String
  accountType : String
deriving Repr, DecidableEq

/-- Modelled from the spec: `redis.getClaudeAccount` is a plain keyed lookup in
the account store. -/
def getClaudeAccount (accountId : String) (st : SchedState) : Option ClaudeAccount :=
  st.claudeAccounts.find? (fun a => a.id == accountId)

/-- Modelled from the spec: `claudeConsoleAccountService.getAccount` is a plain
keyed lookup in the Console account store. -/
def getConsoleAccount (accountId : String) (st : SchedState) : Option ConsoleAccount :=
  st.consoleAccounts.find? (fun a => a.id == accountId)

/-- Modelled from the spec: `claudeAccountService.isAccountRateLimited` (the
service file is not among the sources).  Per the RateLimiter contract an
account is limited while `now < rateLimitedAt + 1h`, mirroring the OpenAI
scheduler's in-source implementation. -/
def claudeIsAccountRateLimited (accountId : String) (st : SchedState) : Bool :=
  match getClaudeAccount accountId st with
  | none => false
  | some a =>
    if a.rateLimitStatus = "limited" then
      match a.rateLimitedAt with
      | some limitedAt => decide (st.now < limitedAt + rateLimitDurationMs)
      | none => false
    else false

/-- Modelled from the spec: `claudeConsoleAccountService.isAccountRateLimited`,
same 1-hour window on Console account records. -/
def consoleIsAccountRateLimited (accountId : String) (st : SchedState) : Bool :=
  match getConsoleAccount accountId st with
  | none => false
  | some a =>
    if a.rateLimitStatus = "limited" then
      match a.rateLimitedAt with
      | some limitedAt => decide (st.now < limitedAt + rateLimitDurationMs)
      | none => false
    else false

/-- Modelled from the spec: `claudeConsoleAccountService.isModelSupported` on
the mapping format - the request's model must appear as a client-facing key. -/
def isModelSupportedTable (mapping : List (String × String)) (model : String) : Bool :=
  mapping.any (fun p => p.1 == model)

/-- `_getSessionMapping` (lines 266-280): a redis GET on
`unified_claude_session_mapping:<hash>`; the TTL semantics of the store
(entry invisible once expired) are modelled from the spec. -/
def getSessionMapping (sessionHash : String) (st : SchedState) : Option Selection :=
  match st.sessionMap.lookup sessionHash with
  | some e => if st.now < e.expiresAtMs then some ⟨e.accountId, e.accountType⟩ else none
  | none => none

/-- `_setSessionMapping` (lines 282-293): SETEX with a fresh 3600 s TTL. -/
def setSessionMapping (sessionHash accountId accountType : String) (st : SchedState) :
    SchedState :=
  { st with sessionMap :=
      (sessionHash, ⟨accountId, accountType, st.now + 3600 * 1000⟩) ::
        st.sessionMap.filter (fun p => p.1 != sessionHash) }

/-- `_deleteSessionMapping` (lines 295-299). -/
def deleteSessionMapping (sessionHash : String) (st : SchedState) : SchedState :=
  { st with sessionMap := st.sessionMap.filter (fun p => p.1 != sessionHash) }

/-- `_isAccountAvailable` (lines 232-263): per-platform activity, status,
schedulable and rate-limit checks for a sticky-session account. -/
def isAccountAvailable (accountId accountType : String) (st : SchedState) : Bool :=
  if accountType == "claude-official" then
    match getClaudeAccount accountId st with
    | none => false
    | some a =>
      if a.isActive != "true" || a.status == "error" then false
      else if a.schedulable == "false" then false
      else !(claudeIsAccountRateLimited accountId st)
  else if accountType == "claude-console" then
    match getConsoleAccount accountId st with
    | none => false
    | some a =>
      if !a.isActive || a.status != "active" then false
      else if a.schedulable == false then false
      else !(consoleIsAccountRateLimited accountId st)
  else false

/-- The dedicated Claude OAuth binding branch of `selectAccountForApiKey`
(lines 16-27): the bound account is returned as soon as it exists, is active
and has a status other than `"error"`; nothing else is checked here. -/
def tryBoundClaudeOfficial (key : SchedulerKey) (st : SchedState) : Option Selection :=
  match key.claudeAccountId with
  | none => none
  | some accountId =>
    match getClaudeAccount accountId st with
    | some bound =>
      if bound.isActive == "true" && bound.status != "error" then
        some ⟨accountId, "claude-official"⟩
      else none
    | none => none

/-- The dedicated Claude Console binding branch of `selectAccountForApiKey`
(lines 30-41): returned as soon as it exists, is active and has status
`"active"`. -/
def tryBoundConsole (key : SchedulerKey) (st : SchedState) : Option Selection :=
  match key.claudeConsoleAccountId with
  | none => none
  | some accountId =>
    match getConsoleAccount accountId st with
    | some bound =>
      if bound.isActive && bound.status == "active" then
        some ⟨accountId, "claude-console"⟩
      else none
    | none => none

/-- `parseInt(p) || 50`: NaN (unparsable) and the falsy 0 both fall back to the
default priority 50. -/
def jsPriority (p : Option Int) : Int :=
  match p with
  | some n => if n = 0 then 50 else n
  | none => 50

/-- `lastUsedAt || '0'` followed by `new Date(...).getTime()` in the sort;
an unset field is modelled as epoch 0. -/
def jsLastUsedMs (t : Option Int) : Int := t.getD 0

/-- The candidate entry built for a Claude OAuth account (spread plus
`accountId`, `accountType`, numeric `priority`, `lastUsedAt` fallback). -/
def toSchedClaude (a : ClaudeAccount) : SchedAccount :=
  ⟨a.id, a.name, "claude-official", jsPriority a.priority, jsLastUsedMs a.lastUsedAt⟩

/-- The candidate entry built for a Claude Console account. -/
def toSchedConsole (a : ConsoleAccount) : SchedAccount :=
  ⟨a.id, a.name, "claude-console", jsPriority a.priority, jsLastUsedMs a.lastUsedAt⟩

/-- The Console model filter of `_getAllAvailableAccounts` (lines 176-192):
no requested model or no `supportedModels` field accepts everything; a
non-empty legacy array must contain the model; a non-empty mapping must have
the model as a key. -/
def consoleSupportsModel (sm : Option SupportedModels) (requestedModel : Option String) : Bool :=
  match requestedModel, sm with
  | some m, some (.arr models) =>
    if models.length > 0 && !(models.contains m) then false else true
  | some m, some (.table mapping) =>
    if mapping.length > 0 && !(isModelSupportedTable mapping m) then false else true
  | _, _ => true

/-- The shared-pool eligibility test for Claude OAuth accounts
(`_getAllAvailableAccounts` lines 143-147). -/
def claudePoolEligible (a : ClaudeAccount) : Bool :=
  a.isActive == "true" && a.status != "error" && a.status != "blocked" &&
    (a.accountType == "shared" || a.accountType == "") && a.schedulable != "false"

/-- The shared-pool eligibility test for Claude Console accounts
(`_getAllAvailableAccounts` lines 171-174). -/
def consolePoolEligible (a : ConsoleAccount) : Bool :=
  a.isActive && a.status == "active" && a.accountType == "shared" && a.schedulable != false

/-- `_getAllAvailableAccounts` (lines 96-215).  A bound OAuth account that is
active, neither errored nor blocked, and not rate-limited short-circuits to a
singleton pool; otherwise a bound Console account is tried the same way;
otherwise the shared OAuth pool and then the shared Console pool (with the
model filter) are concatenated in source order. -/
def getAllAvailableAccounts (key : SchedulerKey) (requestedModel : Option String)
    (st : SchedState) : List SchedAccount :=
  let boundOAuth : Option SchedAccount :=
    match key.claudeAccountId with
    | some accountId =>
      match getClaudeAccount accountId st with
      | some bound =>
        if bound.isActive == "true" && bound.status != "error" && bound.status != "blocked" then
          if !(claudeIsAccountRateLimited bound.id st) then some (toSchedClaude bound) else none
        else none
      | none => none
    | none => none
  match boundOAuth with
  | some acc => [acc]
  | none =>
    let boundConsole : Option SchedAccount :=
      match key.claudeConsoleAccountId with
      | some accountId =>
        match getConsoleAccount accountId st with
        | some bound =>
          if bound.isActive && bound.status == "active" then
            if !(consoleIsAccountRateLimited bound.id st) then some (toSchedConsole bound)
            else none
          else none
        | none => none
      | none => none
    match boundConsole with
    | some acc => [acc]
    | none =>
      let claudePool :=
        (st.claudeAccounts.filter
            (fun a => claudePoolEligible a && !(claudeIsAccountRateLimited a.id st))).map
          toSchedClaude
      let consolePool :=
        (st.consoleAccounts.filter
            (fun a => consolePoolEligible a && consoleSupportsModel a.supportedModels requestedModel
              && !(consoleIsAccountRateLimited a.id st))).map
          toSchedConsole
      claudePool ++ consolePool

/-- The pool stage of `selectAccountForApiKey` (lines 59-88): gather, fail on
an empty pool (message depends on whether a model was requested), sort, pick
the head, and - when a session hash is present - write a fresh session
mapping.  The source tests emptiness before sorting; sorting permutes the
list, so matching on the sorted list is the same test. -/
def selectFromPool (key : SchedulerKey) (sessionHash requestedModel : Option String)
    (st : SchedState) : Except String Selection × SchedState :=
  let availableAccounts := getAllAvailableAccounts key requestedModel st
  match sortAccountsByPriority availableAccounts with
  | [] =>
    match requestedModel with
    | some m => (.error ("No available Claude accounts support the requested model: " ++ m), st)
    | none => (.error "No available Claude accounts (neither official nor console)", st)
  | selectedAccount :: _ =>
    match sessionHash with
    | some sh =>
      (.ok ⟨selectedAccount.accountId, selectedAccount.accountType⟩,
        setSessionMapping sh selectedAccount.accountId selectedAccount.accountType st)
    | none => (.ok ⟨selectedAccount.accountId, selectedAccount.accountType⟩, st)

/-- The sticky-session check (lines 44-57: an available mapped account is
returned as-is; an unavailable one is deleted before falling to the pool),
then the pool stage. -/
def selectStickyOrPool (key : SchedulerKey) (sessionHash requestedModel : Option String)
    (st : SchedState) : Except String Selection × SchedState :=
  match sessionHash with
  | some sh =>
    match getSessionMapping sh st with
    | some mapped =>
      if isAccountAvailable mapped.accountId mapped.accountType st then (.ok mapped, st)
      else selectFromPool key sessionHash requestedModel (deleteSessionMapping sh st)
    | none => selectFromPool key sessionHash requestedModel st
  | none => selectFromPool key none requestedModel st

/-- `selectAccountForApiKey` after the dedicated OAuth branch: the Console
binding, then the sticky/pool stages. -/
def selectPostOAuth (key : SchedulerKey) (sessionHash requestedModel : Option String)
    (st : SchedState) : Except String Selection × SchedState :=
  match tryBoundConsole key st with
  | some sel => (.ok sel, st)
  | none => selectStickyOrPool key sessionHash requestedModel st

/-- `selectAccountForApiKey` (`unifiedClaudeScheduler.js` lines 12-93): the
dedicated OAuth binding first, then everything else. -/
def selectAccountForApiKey (key : SchedulerKey) (sessionHash requestedModel : Option String)
    (st : SchedState) : Except String Selection × SchedState :=
  match tryBoundClaudeOfficial key st with
  | some sel => (.ok sel, st)
  | none => selectPostOAuth key sessionHash requestedModel st

/-! ## The unified OpenAI scheduler (`unifiedOpenAIScheduler.js`)

Same shape as the Claude scheduler, with group bindings (`group:<id>`), the
`_isSchedulable` helper, a token-expiry skip and array-only model filtering.
`openaiAccountService` and `accountGroupService` are not among the sources;
their lookups are modelled from the spec's KeyStore/AccountGroup contracts. -/

/-- `String.prototype.startsWith`, modelled on the character sequences. -/
def jsStartsWith (s pre : String) : Bool :=
  pre.data.isPrefixOf s.data

/-- An account group (`accountGroupService`): platform tag plus member ids.
Modelled from the spec: an AccountGroup is a named set of accounts of one
platform. -/
structure OpenAIGroup where
  id : String
  name : String
  platform : String
  members : List String
deriving Repr, DecidableEq

/-- The OpenAI scheduler's view of the store plus the current clock. -/
structure OpenAIState where
  accounts : List OpenAIAccount
  groups : List OpenAIGroup
  sessionMap : List (String × SessionEntry)
  now : Int
deriving Repr, DecidableEq

/-- The slice of `apiKeyData` the OpenAI scheduler reads; `none` models the
empty-string binding. -/
structure OpenAIKey where
  name : String
  openaiAccountId : Option String
deriving Repr, DecidableEq

/-- Modelled from the spec: `openaiAccountService.getAccount` is a plain keyed
lookup. -/
def getOpenAIAccount (accountId : String) (st : OpenAIState) : Option OpenAIAccount :=
  st.accounts.find? (fun a => a.id == accountId)

/-- `_isSchedulable` (lines 12-19): undefined/null default to schedulable; the
explicit `false`/`'false'` settings (the boolean arm of the JS union is the
string `"false"` in the string-typed store) are not schedulable. -/
def isSchedulable (schedulable : Option String) : Bool :=
  match schedulable with
  | none => true
  | some s => s != "false"

/-- `isAccountRateLimited(accountId)` (lines 324-343) as the scheduler calls
it: fetch the account, then apply the window check. -/
def openaiIsAccountRateLimitedById (accountId : String) (st : OpenAIState) : Bool :=
  openaiIsAccountRateLimited (getOpenAIAccount accountId st) st.now

/-- The OpenAI scheduler's `_getSessionMapping` (lines 253-267), on the
`unified_openai_session_mapping:` prefix; TTL visibility modelled from the
spec. -/
def openaiGetSessionMapping (sessionHash : String) (st : OpenAIState) : Option Selection :=
  match st.sessionMap.lookup sessionHash with
  | some e => if st.now < e.expiresAtMs then some ⟨e.accountId, e.accountType⟩ else none
  | none => none

/-- The OpenAI scheduler's `_setSessionMapping` (lines 270-276): SETEX with a
fresh 3600 s TTL. -/
def openaiSetSessionMapping (sessionHash accountId accountType : String) (st : OpenAIState) :
    OpenAIState :=
  { st with sessionMap :=
      (sessionHash, ⟨accountId, accountType, st.now + 3600 * 1000⟩) ::
        st.sessionMap.filter (fun p => p.1 != sessionHash) }

/-- The OpenAI scheduler's `_deleteSessionMapping` (lines 279-282). -/
def openaiDeleteSessionMapping (sessionHash : String) (st : OpenAIState) : OpenAIState :=
  { st with sessionMap := st.sessionMap.filter (fun p => p.1 != sessionHash) }

/-- `_isAccountAvailable` (lines 231-250): activity, status, schedulable and
rate-limit checks for a sticky-session account; only the `openai` type is
recognised. -/
def openaiIsAccountAvailable (accountId accountType : String) (st : OpenAIState) : Bool :=
  if accountType == "openai" then
    match getOpenAIAccount accountId st with
    | none => false
    | some a =>
      if a.isActive != "true" || a.status == "error" then false
      else if !(isSchedulable a.schedulable) then false
      else !(openaiIsAccountRateLimitedById accountId st)
  else false

/-- The individual dedicated binding branch of the OpenAI
`selectAccountForApiKey` (lines 36-49): the bound account is returned as soon
as it exists, is active and has a status other than `"error"`; nothing else is
checked here. -/
def tryBoundOpenAI (openaiAccountId : String) (st : OpenAIState) : Option Selection :=
  match getOpenAIAccount openaiAccountId st with
  | some bound =>
    if bound.isActive == "true" && bound.status != "error" then
      some ⟨openaiAccountId, "openai"⟩
    else none
  | none => none

/-- The candidate entry built for an OpenAI account. -/
def toSchedOpenAI (a : OpenAIAccount) : SchedAccount :=
  ⟨a.id, a.name, "openai", jsPriority a.priority, jsLastUsedMs a.lastUsedAt⟩

/-- The token-expiry skip (lines 176-182, 399-406): an account whose token is
expired with no refresh token is dropped. -/
def openaiTokenOk (a : OpenAIAccount) : Bool :=
  !(a.tokenExpired && a.refreshToken == "")

/-- The array model filter (lines 185-193, 409-417): applied only when a model
was requested and `supportedModels` is non-empty. -/
def openaiModelOk (a : OpenAIAccount) (requestedModel : Option String) : Bool :=
  match requestedModel with
  | some m => if a.supportedModels.length > 0 then a.supportedModels.contains m else true
  | none => true

/-- The OpenAI `_getAllAvailableAccounts` (lines 122-213).  A bound account
that is active and non-errored short-circuits: rate-limited → fall through to
the pool scan; model unsupported → return the still-empty list; otherwise a
singleton.  The pool scan keeps active, non-errored, shared (or legacy
untyped), schedulable accounts that pass the token, model and rate-limit
checks. -/
def openaiGetAllAvailableAccounts (openaiAccountId : Option String)
    (requestedModel : Option String) (st : OpenAIState) : List SchedAccount :=
  let poolScan : List SchedAccount :=
    (st.accounts.filter (fun a =>
        a.isActive == "true" && a.status != "error" &&
          (a.accountType == "shared" || a.accountType == "") &&
          isSchedulable a.schedulable && openaiTokenOk a && openaiModelOk a requestedModel &&
          !(openaiIsAccountRateLimitedById a.id st))).map
      toSchedOpenAI
  match openaiAccountId with
  | some aid =>
    match getOpenAIAccount aid st with
    | some bound =>
      if bound.isActive == "true" && bound.status != "error" then
        if !(openaiIsAccountRateLimitedById bound.id st) then
          match requestedModel with
          | some m =>
            if bound.supportedModels.length > 0 && !(bound.supportedModels.contains m) then []
            else [toSchedOpenAI bound]
          | none => [toSchedOpenAI bound]
        else poolScan
      else poolScan
    | none => poolScan
  | none => poolScan

/-- The pool stage of the OpenAI `selectAccountForApiKey` (lines 76-114):
fail on an empty pool, sort, pick the head, refresh the session mapping when a
hash is present.  As in the Claude scheduler, matching on the sorted list is
the source's emptiness test since sorting permutes. -/
def openaiSelectFromPool (openaiAccountId : Option String)
    (sessionHash requestedModel : Option String) (st : OpenAIState) :
    Except String Selection × OpenAIState :=
  match sortAccountsByPriority (openaiGetAllAvailableAccounts openaiAccountId requestedModel
      st) with
  | [] =>
    match requestedModel with
    | some m => (.error ("No available OpenAI accounts support the requested model: " ++ m), st)
    | none => (.error "No available OpenAI accounts", st)
  | selectedAccount :: _ =>
    match sessionHash with
    | some sh =>
      (.ok ⟨selectedAccount.accountId, selectedAccount.accountType⟩,
        openaiSetSessionMapping sh selectedAccount.accountId selectedAccount.accountType st)
    | none => (.ok ⟨selectedAccount.accountId, selectedAccount.accountType⟩, st)

/-- The OpenAI scheduler after the binding branch: the sticky-session check
(lines 53-73), then the pool stage. -/
def openaiSelectPostBinding (openaiAccountId : Option String)
    (sessionHash requestedModel : Option String) (st : OpenAIState) :
    Except String Selection × OpenAIState :=
  match sessionHash with
  | some sh =>
    match openaiGetSessionMapping sh st with
    | some mapped =>
      if openaiIsAccountAvailable mapped.accountId mapped.accountType st then (.ok mapped, st)
      else openaiSelectFromPool openaiAccountId sessionHash requestedModel
        (openaiDeleteSessionMapping sh st)
    | none => openaiSelectFromPool openaiAccountId sessionHash requestedModel st
  | none => openaiSelectFromPool openaiAccountId none requestedModel st

/-- The members pool of `selectAccountFromGroup` (lines 389-434): resolve each
member id, keep active, non-errored, schedulable members passing the token,
model and rate-limit checks (no `accountType` restriction here). -/
def openaiGroupPool (group : OpenAIGroup) (requestedModel : Option String)
    (st : OpenAIState) : List SchedAccount :=
  ((group.members.filterMap (fun mid => getOpenAIAccount mid st)).filter (fun a =>
      a.isActive == "true" && a.status != "error" && isSchedulable a.schedulable &&
        openaiTokenOk a && openaiModelOk a requestedModel &&
        !(openaiIsAccountRateLimitedById a.id st))).map
    toSchedOpenAI

/-- The member-enumeration stage of `selectAccountFromGroup` (lines 383-465):
an empty member list is an error, an empty eligible pool is an error,
otherwise sort, pick the head, and refresh the mapping when a hash is
present. -/
def selectFromGroupMembers (group : OpenAIGroup) (sessionHash requestedModel : Option String)
    (st : OpenAIState) : Except String Selection × OpenAIState :=
  if group.members.isEmpty then (.error ("Group " ++ group.name ++ " has no members"), st)
  else
    match sortAccountsByPriority (openaiGroupPool group requestedModel st) with
    | [] => (.error ("No available accounts in group " ++ group.name), st)
    | selectedAccount :: _ =>
      match sessionHash with
      | some sh =>
        (.ok ⟨selectedAccount.accountId, selectedAccount.accountType⟩,
          openaiSetSessionMapping sh selectedAccount.accountId selectedAccount.accountType st)
      | none => (.ok ⟨selectedAccount.accountId, selectedAccount.accountType⟩, st)

/-- `selectAccountFromGroup` (lines 346-470): resolve the group (missing or
non-OpenAI is fatal for the request), honour a sticky mapping only when the
mapped account is still a member and available - otherwise delete it - and
fall to the member enumeration. -/
def selectAccountFromGroup (groupId : String) (sessionHash requestedModel : Option String)
    (st : OpenAIState) : Except String Selection × OpenAIState :=
  match st.groups.find? (fun g => g.id == groupId) with
  | none => (.error ("Group " ++ groupId ++ " not found"), st)
  | some group =>
    if group.platform != "openai" then
      (.error ("Group " ++ group.name ++ " is not an OpenAI group"), st)
    else
      match sessionHash with
      | some sh =>
        match openaiGetSessionMapping sh st with
        | some mapped =>
          if group.members.contains mapped.accountId &&
              openaiIsAccountAvailable mapped.accountId mapped.accountType st then
            (.ok mapped, st)
          else
            selectFromGroupMembers group sessionHash requestedModel
              (openaiDeleteSessionMapping sh st)
        | none => selectFromGroupMembers group sessionHash requestedModel st
      | none => selectFromGroupMembers group none requestedModel st

/-- `groupId` extraction: `replace('group:', '')` on a `group:`-prefixed id
removes the leading six characters. -/
def groupIdOf (openaiAccountId : String) : String := openaiAccountId.drop 6

/-- The OpenAI `selectAccountForApiKey` (lines 22-119): a `group:` binding
delegates to the group selector; an individual binding is tried next
(returned as soon as active and non-errored); anything else falls to the
sticky/pool stages. -/
def openaiSelectAccountForApiKey (key : OpenAIKey) (sessionHash requestedModel : Option String)
    (st : OpenAIState) : Except String Selection × OpenAIState :=
  match key.openaiAccountId with
  | some aid =>
    if jsStartsWith aid "group:" then
      selectAccountFromGroup (groupIdOf aid) sessionHash requestedModel st
    else
      match tryBoundOpenAI aid st with
      | some sel => (.ok sel, st)
      | none => openaiSelectPostBinding (some aid) sessionHash requestedModel st
  | none => openaiSelectPostBinding none sessionHash requestedModel st

/-! ### Concrete scheduler states for counterexamples and witnesses -/

/-- A bound OAuth account that is active with normal status but currently
rate-limited (limited at epoch 0, clock below the 1-hour window). -/
def rlBoundAccount : ClaudeAccount :=
  ⟨"acc-a", "A", "true", "active", "dedicated", "true", some 10, some 0, "limited", some 0⟩

/-- An API key bound to `rlBoundAccount`. -/
def rlBoundKey : SchedulerKey := ⟨"key-1", some "acc-a", none⟩

/-- Scheduler state holding only the rate-limited bound account, clock at
1000 ms (well inside the rate-limit window). -/
def rlBoundState : SchedState := ⟨[rlBoundAccount], [], [], 1000⟩

/-- A healthy shared OAuth pool account. -/
def poolAccountA3 : ClaudeAccount :=
  ⟨"A3", "three", "true", "active", "shared", "true", some 50, some 100, "normal", none⟩

/-- A second healthy shared OAuth pool account, used more recently. -/
def poolAccountA4 : ClaudeAccount :=
  ⟨"A4", "four", "true", "active", "shared", "true", some 50, some 500, "normal", none⟩

/-- An unbound API key. -/
def unboundKey : SchedulerKey := ⟨"key-2", none, none⟩

/-- State with a live session mapping `h1 → A3` (expires at 5000) and both pool
accounts; clock at 2000 ms. -/
def stickyState : SchedState :=
  ⟨[poolAccountA3, poolAccountA4], [], [("h1", ⟨"A3", "claude-official", 5000⟩)], 2000⟩

/-- The dedicated account `A1` for the binding-wins-over-sticky scenario. -/
def dedicatedA1 : ClaudeAccount :=
  ⟨"A1", "one", "true", "active", "dedicated", "true", some 10, none, "normal", none⟩

/-- Key bound to `A1`. -/
def boundKeyA1 : SchedulerKey := ⟨"key-3", some "A1", none⟩

/-- State where session `H` is mapped to `A2` while the key is bound to `A1`. -/
def bindingStickyState : SchedState :=
  ⟨[dedicatedA1], [], [("H", ⟨"A2", "claude-official", 9000⟩)], 2000⟩

/-- A dedicated Console account, active with status "active". -/
def consoleBoundAccount : ConsoleAccount :=
  ⟨"cc-1", "CC", true, "active", "dedicated", true, some 10, none, "normal", none, none⟩

/-- An API key bound (Console binding only) to `consoleBoundAccount`. -/
def consoleBoundKey : SchedulerKey := ⟨"key-cc", none, some "cc-1"⟩

/-- Scheduler state holding only the Console-bound account. -/
def consoleBoundState : SchedState := ⟨[], [consoleBoundAccount], [], 1000⟩

/-- A bound OpenAI account that is active with normal status but currently
rate-limited (limited at epoch 0, clock inside the window). -/
def rlOpenAIAccount : OpenAIAccount :=
  ⟨"oa-1", "OA", "true", "active", "dedicated", none, some 10, none, "limited", some 0, [],
    "", false⟩

/-- An API key bound to `rlOpenAIAccount`. -/
def rlOpenAIKey : OpenAIKey := ⟨"key-oa", some "oa-1"⟩

/-- OpenAI scheduler state holding only the rate-limited bound account. -/
def rlOpenAIState : OpenAIState := ⟨[rlOpenAIAccount], [], [], 1000⟩

/-! ## The API-key service (`apiKeyService.js`)

API-key records are redis hashes: every persisted field is a string.  The
SHA-256 of `crypto` and the ISO-date parsing of `Date` are treated as oracles:
an arbitrary `hashFn : String → String` and `parseMs : String → Option Int`
(`none` models an empty field or a NaN parse). -/

/-- An API-key record exactly as `generateApiKey` stores it (lines 40-64).
`apiKey` holds the hashed secret - the field name is kept from the source.
`updatedAt` is written only by `updateApiKey`; it is empty until then. -/
structure ApiKeyRecord where
  id : String := ""
  name : String := ""
  description : String := ""
  apiKey : String := ""
  tokenLimit : String := "0"
  concurrencyLimit : String := "0"
  rateLimitWindow : String := "0"
  rateLimitRequests : String := "0"
  isActive : String := "true"
  claudeAccountId : String := ""
  claudeConsoleAccountId : String := ""
  geminiAccountId : String := ""
  permissions : String := "all"
  enableModelRestriction : String := "false"
  restrictedModels : String := "[]"
  enableClientRestriction : String := "false"
  allowedClients : String := "[]"
  dailyCostLimit : String := "0"
  tags : String := "[]"
  createdAt : String := ""
  lastUsedAt : String := ""
  expiresAt : String := ""
  createdBy : String := "admin"
  updatedAt : String := ""
deriving Repr, DecidableEq

/-- The key store: records by id plus the hashed-secret → id index.
Modelled from the spec's KeyStore contract (`redis.js` is not among the
sources): `findApiKeyByHash` resolves through the index in O(1). -/
structure KeyStore where
  apiKeys : List (String × ApiKeyRecord)
  hashIndex : List (String × String)
deriving Repr, DecidableEq

/-- Modelled from the spec: `redis.setApiKey(id, record, hashedKey?)` upserts
the record and, when a hash is supplied, the hash → id index entry.  Upsert is
modelled by prepending and dropping the shadowed entry. -/
def setApiKey (keyId : String) (record : ApiKeyRecord) (hashedKey : Option String)
    (st : KeyStore) : KeyStore :=
  { apiKeys := (keyId, record) :: st.apiKeys.filter (fun p => p.1 != keyId),
    hashIndex :=
      match hashedKey with
      | some h => (h, keyId) :: st.hashIndex.filter (fun p => p.1 != h)
      | none => st.hashIndex }

/-- Modelled from the spec: `redis.getApiKey(id)`. -/
def getApiKeyRecord (keyId : String) (st : KeyStore) : Option ApiKeyRecord :=
  st.apiKeys.lookup keyId

/-- Modelled from the spec: `redis.findApiKeyByHash(hash)` - index lookup, then
the record. -/
def findApiKeyByHash (h : String) (st : KeyStore) : Option ApiKeyRecord :=
  match st.hashIndex.lookup h with
  | some keyId => getApiKeyRecord keyId st
  | none => none

/-- The options object accepted by `generateApiKey` (lines 13-33), with the
source's defaults.  `Option` models null/absent fields. -/
structure GenerateOptions where
  name : String := "Unnamed Key"
  description : String := ""
  tokenLimit : Int := 0
  expiresAt : Option String := none
  claudeAccountId : Option String := none
  claudeConsoleAccountId : Option String := none
  geminiAccountId : Option String := none
  permissions : String := "all"
  isActive : Bool := true
  concurrencyLimit : Int := 0
  rateLimitWindow : Option Int := none
  rateLimitRequests : Option Int := none
  enableModelRestriction : Bool := false
  restrictedModels : List String := []
  enableClientRestriction : Bool := false
  allowedClients : List String := []
  dailyCostLimit : Int := 0
  tags : List String := []
deriving Repr

/-- `JSON.stringify` of a plain string array (escaping inside the entries is
not modelled; no claim depends on it). -/
def jsonArray (l : List String) : String :=
  "[" ++ String.intercalate "," (l.map (fun s => "\"" ++ s ++ "\"")) ++ "]"

/-- `String(b)` on a boolean. -/
def jsBoolString (b : Bool) : String := if b then "true" else "false"

/-- `generateApiKey` (lines 13-95): build the full key `pfx ++ secretHex`
(the random 64-hex secret and the UUID are inputs here), hash it, store the
record under the id and the hash index, and hand back the id and the plain
key.  The remaining fields of the JS return value are projections of the
stored record. -/
def generateApiKey (hashFn : String → String) (pfx : String) (opts : GenerateOptions)
    (secretHex keyId nowIso : String) (st : KeyStore) : (String × String) × KeyStore :=
  let apiKey := pfx ++ secretHex
  let hashedKey := hashFn apiKey
  let keyData : ApiKeyRecord :=
    { id := keyId
      name := opts.name
      description := opts.description
      apiKey := hashedKey
      tokenLimit := toString opts.tokenLimit
      concurrencyLimit := toString opts.concurrencyLimit
      rateLimitWindow := toString (opts.rateLimitWindow.getD 0)
      rateLimitRequests := toString (opts.rateLimitRequests.getD 0)
      isActive := jsBoolString opts.isActive
      claudeAccountId := opts.claudeAccountId.getD ""
      claudeConsoleAccountId := opts.claudeConsoleAccountId.getD ""
      geminiAccountId := opts.geminiAccountId.getD ""
      permissions := opts.permissions
      enableModelRestriction := jsBoolString opts.enableModelRestriction
      restrictedModels := jsonArray opts.restrictedModels
      enableClientRestriction := jsBoolString opts.enableClientRestriction
      allowedClients := jsonArray opts.allowedClients
      dailyCostLimit := toString opts.dailyCostLimit
      tags := jsonArray opts.tags
      createdAt := nowIso
      lastUsedAt := ""
      expiresAt := opts.expiresAt.getD ""
      createdBy := "admin"
      updatedAt := "" }
  ((keyId, apiKey), setApiKey keyId keyData (some hashedKey) st)

/-- The outcome of `validateApiKey`: the error string, or the id of the
resolved record (the full returned `keyData` is a projection of the record). -/
inductive ValidationResult where
  | invalid (err : String)
  | valid (id : String)
deriving Repr, DecidableEq

/-- `new Date() > new Date(e)`: false when the parse is NaN (JS comparisons
with NaN are false), otherwise the strict order on milliseconds. -/
def jsDateAfter (now : Int) (parsed : Option Int) : Bool :=
  match parsed with
  | some t => decide (now > t)
  | none => false

/-- The expiry test of `validateApiKey` line 120:
`keyData.expiresAt && new Date() > new Date(keyData.expiresAt)`. -/
def isExpiredRecord (parseMs : String → Option Int) (now : Int) (expiresAt : String) : Bool :=
  expiresAt != "" && jsDateAfter now (parseMs expiresAt)

/-- `validateApiKey` (lines 98-189): format check, hash lookup, disabled
check, expiry check, in that order.  The usage/cost reads that decorate the
success value do not influence the outcome and are omitted. -/
def validateApiKey (hashFn : String → String) (parseMs : String → Option Int) (pfx : String)
    (now : Int) (apiKey : String) (st : KeyStore) : ValidationResult :=
  if apiKey == "" || !(jsStartsWith apiKey pfx) then .invalid "Invalid API key format"
  else
    match findApiKeyByHash (hashFn apiKey) st with
    | none => .invalid "API key not found"
    | some keyData =>
      if keyData.isActive != "true" then .invalid "API key is disabled"
      else if isExpiredRecord parseMs now keyData.expiresAt then .invalid "API key has expired"
      else .valid keyData.id

/-- The allow-list of `updateApiKey` (line 244), verbatim. -/
def allowedUpdates : List String :=
  ["name", "description", "tokenLimit", "concurrencyLimit", "rateLimitWindow",
   "rateLimitRequests", "isActive", "claudeAccountId", "claudeConsoleAccountId",
   "geminiAccountId", "permissions", "expiresAt", "enableModelRestriction",
   "restrictedModels", "enableClientRestriction", "allowedClients", "dailyCostLimit", "tags"]

/-- Write one named field of a record.  Update values arrive already
stringified (the source JSON-stringifies arrays and stringifies booleans and
scalars before storing).  Names outside the record - and in particular outside
the allow-list - leave the record unchanged. -/
def setRecordField (k : ApiKeyRecord) (field value : String) : ApiKeyRecord :=
  match field with
  | "name" => { k with name := value }
  | "description" => { k with description := value }
  | "tokenLimit" => { k with tokenLimit := value }
  | "concurrencyLimit" => { k with concurrencyLimit := value }
  | "rateLimitWindow" => { k with rateLimitWindow := value }
  | "rateLimitRequests" => { k with rateLimitRequests := value }
  | "isActive" => { k with isActive := value }
  | "claudeAccountId" => { k with claudeAccountId := value }
  | "claudeConsoleAccountId" => { k with claudeConsoleAccountId := value }
  | "geminiAccountId" => { k with geminiAccountId := value }
  | "permissions" => { k with permissions := value }
  | "expiresAt" => { k with expiresAt := value }
  | "enableModelRestriction" => { k with enableModelRestriction := value }
  | "restrictedModels" => { k with restrictedModels := value }
  | "enableClientRestriction" => { k with enableClientRestriction := value }
  | "allowedClients" => { k with allowedClients := value }
  | "dailyCostLimit" => { k with dailyCostLimit := value }
  | "tags" => { k with tags := value }
  | _ => k

/-- One entry of the `updates` object (lines 247-259): applied only when the
field is in the allow-list. -/
def applyUpdate (k : ApiKeyRecord) (upd : String × String) : ApiKeyRecord :=
  if allowedUpdates.contains upd.1 then setRecordField k upd.1 upd.2 else k

/-- `updateApiKey` (lines 236-273): missing key is an error (rethrown);
otherwise the allowed fields are folded over the existing record, `updatedAt`
is stamped and the record is stored without touching the hash index. -/
def updateApiKey (keyId : String) (updates : List (String × String)) (nowIso : String)
    (st : KeyStore) : Except String KeyStore :=
  match getApiKeyRecord keyId st with
  | none => .error "API key not found"
  | some keyData =>
    let updatedData := updates.foldl applyUpdate keyData
    let updatedData := { updatedData with updatedAt := nowIso }
    .ok (setApiKey keyId updatedData none st)

/-- A sequence of admin update calls; a failing call leaves the store as it
was (the route surfaces the error and nothing is written). -/
def applyUpdateBatches (keyId : String) (batches : List (List (String × String)))
    (nowIso : String) (st : KeyStore) : KeyStore :=
  match batches with
  | [] => st
  | b :: rest =>
    let st' :=
      match updateApiKey keyId b nowIso st with
      | .ok s => s
      | .error _ => st
    applyUpdateBatches keyId rest nowIso st'

/-! ## Usage recording (`apiKeyService.recordUsage`, lines 294-343)

The store operations inside `recordUsage` are redis calls that may fail; the
surrounding `try/catch` logs and swallows any error.  The state carries a
failure schedule (one boolean per store operation, empty = reliable store):
a scheduled failure makes the operation raise without writing. -/

/-- One counter bucket (`{requests, inputTokens, outputTokens,
cacheCreateTokens, cacheReadTokens, allTokens}`). -/
structure UsageCounters where
  requests : Nat
  inputTokens : Nat
  outputTokens : Nat
  cacheCreateTokens : Nat
  cacheReadTokens : Nat
  allTokens : Nat
deriving Repr, DecidableEq

/-- The all-zero bucket a fresh counter starts from. -/
def zeroCounters : UsageCounters := ⟨0, 0, 0, 0, 0, 0⟩

/-- One atomic increment of every field of a bucket. -/
def bumpCounters (c : UsageCounters) (total input output cacheCreate cacheRead : Nat) :
    UsageCounters :=
  { requests := c.requests + 1
    inputTokens := c.inputTokens + input
    outputTokens := c.outputTokens + output
    cacheCreateTokens := c.cacheCreateTokens + cacheCreate
    cacheReadTokens := c.cacheReadTokens + cacheRead
    allTokens := c.allTokens + total }

/-- The state `recordUsage` touches: the key store, per-key counters,
per-account counters, the per-key daily cost (micro-dollars), and the failure
schedule of the store. -/
structure UsageState where
  keys : KeyStore
  usage : List (String × UsageCounters)
  accountUsage : List (String × UsageCounters)
  dailyCost : List (String × Nat)
  failures : List Bool
deriving Repr, DecidableEq

/-- Consume the next scheduled store outcome; an exhausted schedule means the
store keeps succeeding. -/
def popFailure (st : UsageState) : Bool × UsageState :=
  match st.failures with
  | [] => (false, st)
  | b :: rest => (b, { st with failures := rest })

/-- A store write: raises on a scheduled failure (writing nothing), otherwise
applies the update. -/
def storeWrite (f : UsageState → UsageState) (st : UsageState) :
    Except String Unit × UsageState :=
  let (fail, st') := popFailure st
  if fail then (.error "store error", st') else (.ok (), f st')

/-- A store read: raises on a scheduled failure, otherwise returns the value. -/
def storeRead {α : Type} (g : UsageState → α) (st : UsageState) :
    Except String α × UsageState :=
  let (fail, st') := popFailure st
  if fail then (.error "store error", st') else (.ok (g st'), st')

/-- Modelled from the spec: the atomic add of `redis.incrementTokenUsage` /
`incrementAccountUsage` on one counter map entry. -/
def assocBump (m : List (String × UsageCounters)) (k : String)
    (total input output cacheCreate cacheRead : Nat) : List (String × UsageCounters) :=
  (k, bumpCounters ((m.lookup k).getD zeroCounters) total input output cacheCreate cacheRead) ::
    m.filter (fun p => p.1 != k)

/-- Modelled from the spec: the atomic add of `redis.incrementDailyCost`. -/
def assocAddCost (m : List (String × Nat)) (k : String) (amount : Nat) :
    List (String × Nat) :=
  (k, ((m.lookup k).getD 0) + amount) :: m.filter (fun p => p.1 != k)

/-- The body of `recordUsage` (lines 295-339), before the catch: compute the
total and the cost (`CostCalculator` is a pure external function, an oracle
here, returning micro-dollars), increment the per-key token counters, record
the cost when positive, fetch the key record, and - only when it exists -
stamp `lastUsedAt` and, when an `accountId` was passed, increment the
per-account counters. -/
def recordUsageTry (costOf : Nat → Nat → Nat → Nat → String → Nat) (nowIso : String)
    (keyId : String) (inputTokens outputTokens cacheCreateTokens cacheReadTokens : Nat)
    (model : String) (accountId : Option String) (st : UsageState) :
    Except String Unit × UsageState :=
  let totalTokens := inputTokens + outputTokens + cacheCreateTokens + cacheReadTokens
  let cost := costOf inputTokens outputTokens cacheCreateTokens cacheReadTokens model
  match storeWrite (fun s =>
      let m := assocBump s.usage keyId totalTokens inputTokens outputTokens cacheCreateTokens
        cacheReadTokens
      { s with usage := m }) st with
  | (.error e, s1) => (.error e, s1)
  | (.ok _, s1) =>
    let step2 :=
      if cost > 0 then
        storeWrite (fun s => { s with dailyCost := assocAddCost s.dailyCost keyId cost }) s1
      else (.ok (), s1)
    match step2 with
    | (.error e, s2) => (.error e, s2)
    | (.ok _, s2) =>
      match storeRead (fun s => getApiKeyRecord keyId s.keys) s2 with
      | (.error e, s3) => (.error e, s3)
      | (.ok none, s3) => (.ok (), s3)
      | (.ok (some keyData), s3) =>
        match storeWrite (fun s =>
            let ks := setApiKey keyId { keyData with lastUsedAt := nowIso } none s.keys
            { s with keys := ks }) s3 with
        | (.error e, s4) => (.error e, s4)
        | (.ok _, s4) =>
          match accountId with
          | some aid =>
            storeWrite (fun s =>
              let m := assocBump s.accountUsage aid totalTokens inputTokens outputTokens
                cacheCreateTokens cacheReadTokens
              { s with accountUsage := m }) s4
          | none => (.ok (), s4)

/-- `recordUsage` with its catch block (lines 340-342): the error is logged
and swallowed, never rethrown. -/
def recordUsage (costOf : Nat → Nat → Nat → Nat → String → Nat) (nowIso : String)
    (keyId : String) (inputTokens outputTokens cacheCreateTokens cacheReadTokens : Nat)
    (model : String) (accountId : Option String) (st : UsageState) :
    Except String Unit × UsageState :=
  match recordUsageTry costOf nowIso keyId inputTokens outputTokens cacheCreateTokens
      cacheReadTokens model accountId st with
  | (.ok _, s) => (.ok (), s)
  | (.error _, s) => (.ok (), s)

/-! ### Concrete key-service states for counterexamples and witnesses -/

/-- A stored record whose `expiresAt` parses to exactly the current clock in
the C8 scenario. -/
def c8Record : ApiKeyRecord :=
  { id := "id-8", apiKey := "hcr_k8", isActive := "true", expiresAt := "EXP" }

/-- Store holding `c8Record` under its hash. -/
def c8Store : KeyStore := ⟨[("id-8", c8Record)], [("hcr_k8", "id-8")]⟩

/-- A toy hash oracle. -/
def toyHash (s : String) : String := "h" ++ s

/-- A toy date-parse oracle: only the literal "EXP" parses, to 500 ms. -/
def toyParse (s : String) : Option Int := if s == "EXP" then some 500 else none

/-- Generation options that explicitly disable the key. -/
def inactiveOpts : GenerateOptions := { isActive := false }

/-- The generate-then-validate state for the C9 counterexample. -/
def c9Gen : (String × String) × KeyStore :=
  generateApiKey toyHash "cr_" inactiveOpts "sec9" "id-9" "2025-01-01T00:00:00.000Z" ⟨[], []⟩

/-- The stored record for the C10 scenario. -/
def c10Record : ApiKeyRecord :=
  { id := "id-10", apiKey := "h10", createdAt := "2025-01-01", isActive := "true" }

/-- Store holding `c10Record`. -/
def c10Store : KeyStore := ⟨[("id-10", c10Record)], [("h10", "id-10")]⟩

/-- Update batches that try, among legitimate edits, to rewrite the id, the
stored hash and the creation date. -/
def c10Batches : List (List (String × String)) :=
  [[("name", "renamed"), ("id", "evil"), ("apiKey", "evil-hash")],
   [("createdAt", "1999"), ("isActive", "false")]]

/-- Usage state with no key records at all (reliable store). -/
def missingKeyUsageState : UsageState := ⟨⟨[], []⟩, [], [], [], []⟩

/-- A cost oracle that always returns zero. -/
def zeroCost : Nat → Nat → Nat → Nat → String → Nat := fun _ _ _ _ _ => 0

/-- Usage state holding one key record `k-1` (reliable store). -/
def c6State : UsageState :=
  ⟨⟨[("k-1", { id := "k-1" })], []⟩, [], [], [], []⟩

/-! ## Theorems -/

theorem accountLE_trans (a b c : SchedAccount) :
    accountLE a b → accountLE b c → accountLE a c := by
  simp only [accountLE, jsSortCmp, decide_eq_true_eq]
  intro h1 h2
  split at h1 <;> split at h2 <;> split <;> omega

theorem accountLE_total (a b : SchedAccount) :
    accountLE a b || accountLE b a := by
  simp only [accountLE, jsSortCmp, Bool.or_eq_true, decide_eq_true_eq]
  split <;> split <;> omega

/-- Evaluation helper: a stable merge sort of a two-element list only consults
the comparator once. -/
theorem mergeSort_pair {α : Type} (le : α → α → Bool) (a b : α) :
    List.mergeSort [a, b] le = if le a b then [a, b] else [b, a] := by
  rw [List.mergeSort]
  simp [List.merge]

/-- C1 (counterexample): the scheduler returns the bound dedicated Claude OAuth
account even though that account is currently rate-limited, contradicting the
claim that a bound account is returned only when it is eligible and not
rate-limited.  Lines 16-27 of `unifiedClaudeScheduler.js` check only
`isActive` and `status !== 'error'` before returning the binding. -/
theorem C1_counterexample :
    selectAccountForApiKey rlBoundKey none none rlBoundState =
      (.ok ⟨"acc-a", "claude-official"⟩, rlBoundState) ∧
    claudeIsAccountRateLimited "acc-a" rlBoundState = true := by
  constructor
  · rfl
  · decide

/-- C1 (amended): for every individual dedicated binding - Claude OAuth,
Claude Console (with the OAuth binding not taken) and OpenAI (non-`group:`) -
the bound account is returned exactly when it exists, is active and its status
passes the branch's status test (OAuth/OpenAI: not `"error"`; Console: equal
to `"active"`); rate-limit state, model support, schedulable flag and blocked
status are not consulted.  When that check fails the scheduler falls through
(with a warning) to the subsequent binding/sticky/pool stages instead of
returning the binding or aborting. -/
theorem C1_amended (sessionHash requestedModel : Option String) :
    (∀ (key : SchedulerKey) (st : SchedState) (accountId : String),
      key.claudeAccountId = some accountId →
      ((∀ a, getClaudeAccount accountId st = some a → a.isActive = "true" →
          a.status ≠ "error" →
          selectAccountForApiKey key sessionHash requestedModel st =
            (.ok ⟨accountId, "claude-official"⟩, st)) ∧
       ((∀ a, getClaudeAccount accountId st = some a →
          a.isActive ≠ "true" ∨ a.status = "error") →
          selectAccountForApiKey key sessionHash requestedModel st =
            selectPostOAuth key sessionHash requestedModel st))) ∧
    (∀ (key : SchedulerKey) (st : SchedState) (accountId : String),
      tryBoundClaudeOfficial key st = none →
      key.claudeConsoleAccountId = some accountId →
      ((∀ a, getConsoleAccount accountId st = some a → a.isActive = true →
          a.status = "active" →
          selectAccountForApiKey key sessionHash requestedModel st =
            (.ok ⟨accountId, "claude-console"⟩, st)) ∧
       ((∀ a, getConsoleAccount accountId st = some a →
          a.isActive = false ∨ a.status ≠ "active") →
          selectAccountForApiKey key sessionHash requestedModel st =
            selectStickyOrPool key sessionHash requestedModel st))) ∧
    (∀ (key : OpenAIKey) (st : OpenAIState) (accountId : String),
      key.openaiAccountId = some accountId →
      jsStartsWith accountId "group:" = false →
      ((∀ a, getOpenAIAccount accountId st = some a → a.isActive = "true" →
          a.status ≠ "error" →
          openaiSelectAccountForApiKey key sessionHash requestedModel st =
            (.ok ⟨accountId, "openai"⟩, st)) ∧
       ((∀ a, getOpenAIAccount accountId st = some a →
          a.isActive ≠ "true" ∨ a.status = "error") →
          openaiSelectAccountForApiKey key sessionHash requestedModel st =
            openaiSelectPostBinding (some accountId) sessionHash requestedModel st))) := by
  refine ⟨?_, ?_, ?_⟩
  · intro key st accountId hbind
    constructor
    · intro a hget hact hstat
      simp [selectAccountForApiKey, tryBoundClaudeOfficial, hbind, hget, hact, hstat]
    · intro hfail
      simp only [selectAccountForApiKey, tryBoundClaudeOfficial, hbind]
      cases hget : getClaudeAccount accountId st with
      | none => rfl
      | some a =>
        rcases hfail a hget with h | h
        · simp [h]
        · simp [h]
  · intro key st accountId hoauth hbind
    constructor
    · intro a hget hact hstat
      simp [selectAccountForApiKey, hoauth, selectPostOAuth, tryBoundConsole, hbind, hget,
        hact, hstat]
    · intro hfail
      simp only [selectAccountForApiKey, hoauth, selectPostOAuth, tryBoundConsole, hbind]
      cases hget : getConsoleAccount accountId st with
      | none => rfl
      | some a =>
        rcases hfail a hget with h | h
        · simp [h]
        · simp [h]
  · intro key st accountId hbind hgrp
    constructor
    · intro a hget hact hstat
      simp [openaiSelectAccountForApiKey, hbind, hgrp, tryBoundOpenAI, hget, hact, hstat]
    · intro hfail
      simp only [openaiSelectAccountForApiKey, hbind, hgrp, tryBoundOpenAI]
      cases hget : getOpenAIAccount accountId st with
      | none => simp
      | some a =>
        rcases hfail a hget with h | h
        · simp [h]
        · simp [h]

/-- C1 (amended) witness: the amended theorem applied to three concrete bound
keys, one per binding kind - among them the rate-limited OAuth and OpenAI
accounts, which the binding branches return anyway. -/
theorem C1_amended_witness :
    selectAccountForApiKey rlBoundKey none none rlBoundState =
      (.ok ⟨"acc-a", "claude-official"⟩, rlBoundState) ∧
    selectAccountForApiKey consoleBoundKey none none consoleBoundState =
      (.ok ⟨"cc-1", "claude-console"⟩, consoleBoundState) ∧
    openaiSelectAccountForApiKey rlOpenAIKey none none rlOpenAIState =
      (.ok ⟨"oa-1", "openai"⟩, rlOpenAIState) :=
  ⟨((C1_amended none none).1 rlBoundKey rlBoundState "acc-a" rfl).1 rlBoundAccount
      (by decide) rfl (by decide),
   ((C1_amended none none).2.1 consoleBoundKey consoleBoundState "cc-1" (by decide) rfl).1
      consoleBoundAccount (by decide) rfl rfl,
   ((C1_amended none none).2.2 rlOpenAIKey rlOpenAIState "oa-1" rfl (by decide)).1
      rlOpenAIAccount (by decide) rfl (by decide)⟩

/-- C5: whenever a dedicated binding (OAuth, or Console with the OAuth binding
not taken) yields the returned account, the scheduler returns it with the
store state completely untouched - in particular the session mapping stored
for the supplied session hash is neither overwritten nor deleted. -/
theorem C5_binding_preserves_session (key : SchedulerKey)
    (sessionHash requestedModel : Option String) (st : SchedState) :
    (∀ sel, tryBoundClaudeOfficial key st = some sel →
      selectAccountForApiKey key sessionHash requestedModel st = (.ok sel, st)) ∧
    (∀ sel, tryBoundClaudeOfficial key st = none → tryBoundConsole key st = some sel →
      selectAccountForApiKey key sessionHash requestedModel st = (.ok sel, st)) := by
  constructor
  · intro sel h
    simp [selectAccountForApiKey, h]
  · intro sel h1 h2
    simp [selectAccountForApiKey, selectPostOAuth, h1, h2]

/-- C5 witness: key bound to the eligible dedicated account A1 while session
`H` is mapped to A2; the call returns A1 and the state - in particular
SessionMap[H] - is unchanged. -/
theorem C5_binding_preserves_session_witness :
    selectAccountForApiKey boundKeyA1 (some "H") (some "claude-3-5-sonnet-20241022")
        bindingStickyState =
      (.ok ⟨"A1", "claude-official"⟩, bindingStickyState) :=
  (C5_binding_preserves_session boundKeyA1 (some "H") (some "claude-3-5-sonnet-20241022")
      bindingStickyState).1 ⟨"A1", "claude-official"⟩ (by decide)

/-- C4: when no dedicated binding takes effect and the session mapping is
found with its mapped account still available, the scheduler returns the
mapped account and leaves the state - session map entries and their stored
TTL expiry instants included - exactly as it was: a successful sticky reuse
does not rewrite the mapping and hence does not refresh its 1-hour TTL. -/
theorem C4_sticky_no_refresh (key : SchedulerKey) (sessionHash : String)
    (requestedModel : Option String) (st : SchedState) (mapped : Selection)
    (h1 : tryBoundClaudeOfficial key st = none)
    (h2 : tryBoundConsole key st = none)
    (h3 : getSessionMapping sessionHash st = some mapped)
    (h4 : isAccountAvailable mapped.accountId mapped.accountType st = true) :
    selectAccountForApiKey key (some sessionHash) requestedModel st = (.ok mapped, st) := by
  simp [selectAccountForApiKey, selectPostOAuth, selectStickyOrPool, h1, h2, h3, h4]

/-- C4 witness: an unbound key with a live mapping `h1 → A3` and A3 available;
the call returns A3 with the state unchanged. -/
theorem C4_sticky_no_refresh_witness :
    selectAccountForApiKey unboundKey (some "h1") none stickyState =
      (.ok ⟨"A3", "claude-official"⟩, stickyState) :=
  C4_sticky_no_refresh unboundKey "h1" none stickyState ⟨"A3", "claude-official"⟩
    (by decide) (by decide) (by decide) (by decide)

/-- C2 (counterexample): two candidates that agree on priority and lastUsedAt
but whose ids are out of order stay in input order after
`_sortAccountsByPriority`; the comparator never consults `id`, so the output is
not ordered by `(priority, lastUsedAt, id)` as the claim states. -/
theorem C2_counterexample :
    sortAccountsByPriority [exTieB, exTieA] = [exTieB, exTieA] ∧
    ¬ List.Pairwise (fun x y => specClaimedLE x y = true)
        (sortAccountsByPriority [exTieB, exTieA]) := by
  have h : sortAccountsByPriority [exTieB, exTieA] = [exTieB, exTieA] := by
    rw [sortAccountsByPriority, mergeSort_pair]
    decide
  refine ⟨h, ?_⟩
  rw [h]
  decide

/-- C2 (amended): the scheduler's ranking sorts by priority ascending, breaking
ties by lastUsedAt ascending; any remaining ties (equal priority and equal
lastUsedAt) keep their input order - the comparator does not consult `id` - and
since the sort is a deterministic stable permutation, equal inputs yield
identical outputs on repeated sorts (the sort is idempotent). -/
theorem C2_amended (l : List SchedAccount) :
    List.Pairwise (fun x y => accountLE x y = true) (sortAccountsByPriority l) ∧
    (sortAccountsByPriority l).Perm l ∧
    sortAccountsByPriority (sortAccountsByPriority l) = sortAccountsByPriority l ∧
    (∀ a b : SchedAccount, accountLE a b = true → [a, b].Sublist l →
      [a, b].Sublist (sortAccountsByPriority l)) := by
  simp only [sortAccountsByPriority]
  refine ⟨?_, ?_, ?_, ?_⟩
  · exact List.sorted_mergeSort accountLE_trans accountLE_total l
  · exact List.mergeSort_perm l accountLE
  · exact List.mergeSort_of_sorted (List.sorted_mergeSort accountLE_trans accountLE_total l)
  · intro a b hab hsub
    exact List.pair_sublist_mergeSort accountLE_trans accountLE_total hab hsub

/-- C2 (amended) witness: the amended theorem evaluated on the concrete
tied pair: sorting is idempotent there and the tied pair keeps input order. -/
theorem C2_amended_witness :
    sortAccountsByPriority (sortAccountsByPriority [exTieB, exTieA]) =
      sortAccountsByPriority [exTieB, exTieA] ∧
    [exTieB, exTieA].Sublist (sortAccountsByPriority [exTieB, exTieA]) :=
  ⟨(C2_amended [exTieB, exTieA]).2.2.1,
   (C2_amended [exTieB, exTieA]).2.2.2 exTieB exTieA (by decide) (by decide)⟩

/-- C3: For every account, isAccountRateLimited returns true if and only if the
account record has rateLimitStatus 'limited' with rateLimitedAt set and the
current time is strictly before rateLimitedAt plus one hour; at or after that
instant the account reads as not limited. -/
theorem C3_rate_limit_window (a : OpenAIAccount) (now : Int) :
    openaiIsAccountRateLimited (some a) now = true ↔
      (a.rateLimitStatus = "limited" ∧
        ∃ t, a.rateLimitedAt = some t ∧ now < t + 3600000) := by
  show (if a.rateLimitStatus = "limited" then _ else false) = true ↔ _
  by_cases hs : a.rateLimitStatus = "limited"
  · cases ht : a.rateLimitedAt with
    | none => simp [hs, ht]
    | some t => simp [hs, ht, rateLimitDurationMs]
  · simp [hs]

/-- `startsWith` holds on any string extending its first argument. -/
theorem isPrefixOf_self_append (l t : List Char) : l.isPrefixOf (l ++ t) = true := by
  induction l with
  | nil => simp
  | cons a as ih => simp [ih]

theorem jsStartsWith_self_append (p s : String) : jsStartsWith (p ++ s) p = true := by
  simp [jsStartsWith, isPrefixOf_self_append]

/-- C7: for every input - any cost oracle, any arguments, any store content
and any store-failure schedule - recordUsage returns without an error: the
catch block swallows every store failure, so accounting can never fail the
user-visible response. -/
theorem C7_record_swallows_errors (costOf : Nat → Nat → Nat → Nat → String → Nat)
    (nowIso keyId : String) (inputTokens outputTokens cacheCreateTokens cacheReadTokens : Nat)
    (model : String) (accountId : Option String) (st : UsageState) :
    (recordUsage costOf nowIso keyId inputTokens outputTokens cacheCreateTokens cacheReadTokens
        model accountId st).1 = Except.ok () := by
  unfold recordUsage
  split <;> rfl

/-- A reliable-store run of the recordUsage body with the key record present:
the per-key counters, the conditional daily cost, the stamped key record, and
the per-account counters exactly when an accountId was passed. -/
theorem recordUsageTry_reliable (costOf : Nat → Nat → Nat → Nat → String → Nat)
    (nowIso keyId : String) (i o cc cr : Nat) (model : String) (accountId : Option String)
    (st : UsageState) (k : ApiKeyRecord)
    (hrel : st.failures = []) (hkey : getApiKeyRecord keyId st.keys = some k) :
    recordUsageTry costOf nowIso keyId i o cc cr model accountId st =
      (.ok (),
        { keys := setApiKey keyId { k with lastUsedAt := nowIso } none st.keys
          usage := assocBump st.usage keyId (i + o + cc + cr) i o cc cr
          accountUsage :=
            match accountId with
            | some aid => assocBump st.accountUsage aid (i + o + cc + cr) i o cc cr
            | none => st.accountUsage
          dailyCost :=
            if costOf i o cc cr model > 0 then
              assocAddCost st.dailyCost keyId (costOf i o cc cr model)
            else st.dailyCost
          failures := [] }) := by
  obtain ⟨ks, us, au, dc, fl⟩ := st
  simp only at hrel hkey
  subst hrel
  rcases accountId with _ | aid <;>
    by_cases hc : costOf i o cc cr model > 0 <;>
      simp [recordUsageTry, storeWrite, storeRead, popFailure, hkey, hc]

/-- C6 (counterexample): a call with an accountId but whose keyId has no
stored record increments the per-key counters yet writes no account-level
statistics, refuting "per-account counters increase iff accountId was
passed". -/
theorem C6_counterexample :
    ((recordUsage zeroCost "t" "k-miss" 1 2 3 4 "m" (some "acc-1")
        missingKeyUsageState).2).accountUsage = [] ∧
    ((recordUsage zeroCost "t" "k-miss" 1 2 3 4 "m" (some "acc-1")
        missingKeyUsageState).2).usage.lookup "k-miss" = some ⟨1, 1, 2, 3, 4, 10⟩ := by
  constructor <;> rfl

/-- A reliable-store run of the recordUsage body with the key record missing:
the per-key counters and the conditional daily cost are still written, but the
key store and the account-level counters are untouched - the account branch is
never reached. -/
theorem recordUsageTry_reliable_missing (costOf : Nat → Nat → Nat → Nat → String → Nat)
    (nowIso keyId : String) (i o cc cr : Nat) (model : String) (accountId : Option String)
    (st : UsageState)
    (hrel : st.failures = []) (hkey : getApiKeyRecord keyId st.keys = none) :
    recordUsageTry costOf nowIso keyId i o cc cr model accountId st =
      (.ok (),
        { keys := st.keys
          usage := assocBump st.usage keyId (i + o + cc + cr) i o cc cr
          accountUsage := st.accountUsage
          dailyCost :=
            if costOf i o cc cr model > 0 then
              assocAddCost st.dailyCost keyId (costOf i o cc cr model)
            else st.dailyCost
          failures := [] }) := by
  obtain ⟨ks, us, au, dc, fl⟩ := st
  simp only at hrel hkey
  subst hrel
  by_cases hc : costOf i o cc cr model > 0 <;>
    simp [recordUsageTry, storeWrite, storeRead, popFailure, hkey, hc]

/-- C6 (amended): on a reliable store, every call increments the per-key
counters by exactly the recorded token counts; the per-account counters
increase by the same amounts exactly when an accountId was passed and the key
record still exists in the store; when accountId is absent, or the key record
is missing, the account-level statistics are untouched. -/
theorem C6_amended (costOf : Nat → Nat → Nat → Nat → String → Nat) (nowIso keyId : String)
    (i o cc cr : Nat) (model : String) (accountId : Option String) (st : UsageState)
    (hrel : st.failures = []) :
    ((recordUsage costOf nowIso keyId i o cc cr model accountId st).2).usage.lookup keyId =
      some (bumpCounters ((st.usage.lookup keyId).getD zeroCounters) (i + o + cc + cr)
        i o cc cr) ∧
    (∀ aid, accountId = some aid → ∀ k, getApiKeyRecord keyId st.keys = some k →
      ((recordUsage costOf nowIso keyId i o cc cr model accountId st).2).accountUsage.lookup
          aid =
        some (bumpCounters ((st.accountUsage.lookup aid).getD zeroCounters) (i + o + cc + cr)
          i o cc cr)) ∧
    (accountId = none ∨ getApiKeyRecord keyId st.keys = none →
      ((recordUsage costOf nowIso keyId i o cc cr model accountId st).2).accountUsage =
        st.accountUsage) := by
  cases hcase : getApiKeyRecord keyId st.keys with
  | none =>
    have hrun := recordUsageTry_reliable_missing costOf nowIso keyId i o cc cr model
      accountId st hrel hcase
    refine ⟨?_, ?_, ?_⟩
    · simp [recordUsage, hrun, assocBump, List.lookup]
    · intro aid haid k hk
      exact absurd hk (by simp)
    · intro _
      simp [recordUsage, hrun]
  | some k =>
    have hrun := recordUsageTry_reliable costOf nowIso keyId i o cc cr model accountId st k
      hrel hcase
    refine ⟨?_, ?_, ?_⟩
    · simp [recordUsage, hrun, assocBump, List.lookup]
    · intro aid haid k' hk'
      subst haid
      simp [recordUsage, hrun, assocBump, List.lookup]
    · intro hor
      rcases hor with hnone | hmiss
      · subst hnone
        simp [recordUsage, hrun]
      · exact absurd hmiss (by simp)

/-- C6 (amended) witness: the amended theorem on a concrete store holding the
key record (per-key and per-account counters bumped), and on a store with the
key record missing while an accountId is passed (account statistics
untouched). -/
theorem C6_amended_witness :
    ((recordUsage zeroCost "t" "k-1" 1 0 0 0 "m" (some "acc-9") c6State).2).usage.lookup
        "k-1" =
      some (bumpCounters ((c6State.usage.lookup "k-1").getD zeroCounters) (1 + 0 + 0 + 0)
        1 0 0 0) ∧
    ((recordUsage zeroCost "t" "k-1" 1 0 0 0 "m" (some "acc-9") c6State).2).accountUsage.lookup
        "acc-9" =
      some (bumpCounters ((c6State.accountUsage.lookup "acc-9").getD zeroCounters)
        (1 + 0 + 0 + 0) 1 0 0 0) ∧
    ((recordUsage zeroCost "t" "k-miss" 1 2 3 4 "m" (some "acc-1")
        missingKeyUsageState).2).accountUsage = missingKeyUsageState.accountUsage :=
  ⟨(C6_amended zeroCost "t" "k-1" 1 0 0 0 "m" (some "acc-9") c6State rfl).1,
   (C6_amended zeroCost "t" "k-1" 1 0 0 0 "m" (some "acc-9") c6State rfl).2.1 "acc-9" rfl
     { id := "k-1" } (by decide),
   (C6_amended zeroCost "t" "k-miss" 1 2 3 4 "m" (some "acc-1") missingKeyUsageState
     rfl).2.2 (Or.inr (by decide))⟩

/-- C8 (counterexample): a key whose `expiresAt` parses to exactly the current
clock still validates - the source uses the strict `new Date() > new
Date(expiresAt)` - contradicting the claim that `expiresAt = now` must be
rejected as expired. -/
theorem C8_counterexample :
    validateApiKey toyHash toyParse "cr_" 500 "cr_k8" c8Store =
      ValidationResult.valid "id-8" := by
  rfl

/-- C8 (amended): for a well-formed secret resolving to a record, a disabled
key (isActive not "true") is rejected as disabled before any expiry check, and
an active key with a parsable non-empty expiresAt is rejected as expired
exactly when the current time is strictly after expiresAt; at `expiresAt =
now` the key still validates. -/
theorem C8_amended (hashFn : String → String) (parseMs : String → Option Int) (pfx : String)
    (now : Int) (apiKey : String) (st : KeyStore) (keyData : ApiKeyRecord)
    (hfmt : (apiKey == "" || !(jsStartsWith apiKey pfx)) = false)
    (hfind : findApiKeyByHash (hashFn apiKey) st = some keyData) :
    (keyData.isActive ≠ "true" →
      validateApiKey hashFn parseMs pfx now apiKey st = .invalid "API key is disabled") ∧
    (keyData.isActive = "true" → ∀ t, parseMs keyData.expiresAt = some t →
      keyData.expiresAt ≠ "" →
      (validateApiKey hashFn parseMs pfx now apiKey st = .invalid "API key has expired" ↔
        t < now)) := by
  constructor
  · intro hdis
    simp [validateApiKey, hfmt, hfind, hdis]
  · intro hact t hparse hne
    by_cases hlt : t < now <;>
      simp [validateApiKey, hfmt, hfind, hact, isExpiredRecord, jsDateAfter, hparse, hne, hlt]

/-- C8 (amended) witness: one tick past the expiry instant the same key is
rejected as expired. -/
theorem C8_amended_witness :
    validateApiKey toyHash toyParse "cr_" 501 "cr_k8" c8Store =
      ValidationResult.invalid "API key has expired" :=
  ((C8_amended toyHash toyParse "cr_" 501 "cr_k8" c8Store c8Record (by decide)
      (by decide)).2 rfl 500 rfl (by decide)).mpr (by decide)

/-- C9 (counterexample): a key generated with `isActive: false` fails
validation as disabled, so "for every freshly generated API key, validating
the returned secret succeeds" does not hold unconditionally. -/
theorem C9_counterexample :
    validateApiKey toyHash toyParse "cr_" 0 c9Gen.1.2 c9Gen.2 =
      ValidationResult.invalid "API key is disabled" := by
  rfl

/-- C9 (amended): for every key generated active and not already expired at
validation time (in particular any key generated with the source's defaults:
active, no expiry), validating the returned secret succeeds and resolves,
through the hash index, to the id returned at generation. -/
theorem C9_amended (hashFn : String → String) (parseMs : String → Option Int) (pfx : String)
    (opts : GenerateOptions) (secretHex keyId nowIso : String) (now : Int) (st : KeyStore)
    (hne : pfx ++ secretHex ≠ "")
    (hact : opts.isActive = true)
    (hexp : isExpiredRecord parseMs now (opts.expiresAt.getD "") = false) :
    validateApiKey hashFn parseMs pfx now
        (generateApiKey hashFn pfx opts secretHex keyId nowIso st).1.2
        (generateApiKey hashFn pfx opts secretHex keyId nowIso st).2 =
      ValidationResult.valid keyId := by
  simp only [generateApiKey]
  simp [validateApiKey, hne, jsStartsWith_self_append, findApiKeyByHash, getApiKeyRecord,
    setApiKey, List.lookup, jsBoolString, hact, hexp]

/-- C9 (amended) witness: generate with the source defaults and validate. -/
theorem C9_amended_witness :
    validateApiKey toyHash toyParse "cr_" 0
        (generateApiKey toyHash "cr_" {} "s" "id-w9" "t" ⟨[], []⟩).1.2
        (generateApiKey toyHash "cr_" {} "s" "id-w9" "t" ⟨[], []⟩).2 =
      ValidationResult.valid "id-w9" :=
  C9_amended toyHash toyParse "cr_" {} "s" "id-w9" "t" 0 ⟨[], []⟩ (by decide) rfl (by decide)

/-- `setRecordField` can never write `id`, `apiKey` or `createdAt`: those
field names have no branch in the update match. -/
theorem setRecordField_frame (k : ApiKeyRecord) (f v : String) :
    (setRecordField k f v).id = k.id ∧ (setRecordField k f v).apiKey = k.apiKey ∧
      (setRecordField k f v).createdAt = k.createdAt := by
  unfold setRecordField
  split <;> exact ⟨rfl, rfl, rfl⟩

theorem applyUpdate_frame (k : ApiKeyRecord) (u : String × String) :
    (applyUpdate k u).id = k.id ∧ (applyUpdate k u).apiKey = k.apiKey ∧
      (applyUpdate k u).createdAt = k.createdAt := by
  unfold applyUpdate
  split
  · exact setRecordField_frame k u.1 u.2
  · exact ⟨rfl, rfl, rfl⟩

theorem foldl_applyUpdate_frame (updates : List (String × String)) (k : ApiKeyRecord) :
    (updates.foldl applyUpdate k).id = k.id ∧
      (updates.foldl applyUpdate k).apiKey = k.apiKey ∧
      (updates.foldl applyUpdate k).createdAt = k.createdAt := by
  induction updates generalizing k with
  | nil => exact ⟨rfl, rfl, rfl⟩
  | cons u rest ih =>
    have h1 := applyUpdate_frame k u
    have h2 := ih (applyUpdate k u)
    simp only [List.foldl_cons]
    exact ⟨h2.1.trans h1.1, h2.2.1.trans h1.2.1, h2.2.2.trans h1.2.2⟩

/-- C10: across any sequence of admin update calls, the stored record keeps
its `id`, its `apiKey` hash and its `createdAt` - none of these names is in
the allow-list - and the hash index is never rewritten, so the original secret
continues to resolve through the unchanged hash index to the same record. -/
theorem C10_update_frame (keyId : String) (batches : List (List (String × String)))
    (nowIso : String) (st : KeyStore) (k : ApiKeyRecord)
    (h : getApiKeyRecord keyId st = some k) :
    ((getApiKeyRecord keyId (applyUpdateBatches keyId batches nowIso st)).map
        (fun r => r.id) = some k.id) ∧
    ((getApiKeyRecord keyId (applyUpdateBatches keyId batches nowIso st)).map
        (fun r => r.apiKey) = some k.apiKey) ∧
    ((getApiKeyRecord keyId (applyUpdateBatches keyId batches nowIso st)).map
        (fun r => r.createdAt) = some k.createdAt) ∧
    (applyUpdateBatches keyId batches nowIso st).hashIndex = st.hashIndex := by
  induction batches generalizing st k with
  | nil => simp [applyUpdateBatches, h]
  | cons b rest ih =>
    have hup : updateApiKey keyId b nowIso st =
        .ok (setApiKey keyId { b.foldl applyUpdate k with updatedAt := nowIso } none st) := by
      simp [updateApiKey, h]
    have hlook :
        getApiKeyRecord keyId
            (setApiKey keyId { b.foldl applyUpdate k with updatedAt := nowIso } none st) =
          some { b.foldl applyUpdate k with updatedAt := nowIso } := by
      simp [getApiKeyRecord, setApiKey, List.lookup]
    have hfold := foldl_applyUpdate_frame b k
    have ihres := ih (setApiKey keyId { b.foldl applyUpdate k with updatedAt := nowIso } none st)
      { b.foldl applyUpdate k with updatedAt := nowIso } hlook
    have hbatch : applyUpdateBatches keyId (b :: rest) nowIso st =
        applyUpdateBatches keyId rest nowIso
          (setApiKey keyId { b.foldl applyUpdate k with updatedAt := nowIso } none st) := by
      simp [applyUpdateBatches, hup]
    rw [hbatch]
    refine ⟨?_, ?_, ?_, ?_⟩
    · exact ihres.1.trans (by simp [hfold.1])
    · exact ihres.2.1.trans (by simp [hfold.2.1])
    · exact ihres.2.2.1.trans (by simp [hfold.2.2])
    · exact ihres.2.2.2.trans (by simp [setApiKey])

/-- C10 witness: a concrete store under update batches that try to rewrite
`id`, `apiKey` and `createdAt`; the stored record keeps all three and the hash
index is unchanged. -/
theorem C10_update_frame_witness :
    ((getApiKeyRecord "id-10" (applyUpdateBatches "id-10" c10Batches "2025-06-01"
        c10Store)).map (fun r => r.id) = some c10Record.id) ∧
    ((getApiKeyRecord "id-10" (applyUpdateBatches "id-10" c10Batches "2025-06-01"
        c10Store)).map (fun r => r.apiKey) = some c10Record.apiKey) ∧
    ((getApiKeyRecord "id-10" (applyUpdateBatches "id-10" c10Batches "2025-06-01"
        c10Store)).map (fun r => r.createdAt) = some c10Record.createdAt) ∧
    (applyUpdateBatches "id-10" c10Batches "2025-06-01" c10Store).hashIndex =
      c10Store.hashIndex :=
  C10_update_frame "id-10" c10Batches "2025-06-01" c10Store c10Record (by decide)

end Relay
